import Mathlib

/-!
Shallow embedding of the `hnscraper` Go package (src/hnscraper.go) and proofs
about its extraction pipeline.

Modelling conventions:
* Go strings are modelled as Lean `String` (sequences of characters; every
  string the program manipulates here is ASCII, where Go's byte indexing and
  character indexing coincide).
* A Go function returning `(T, error)` is modelled as `GoResult T`, which is
  either a normal return `ret v err` (with `err = none` for a nil error) or
  `crash msg` for a runtime panic, which propagates through every caller
  (the package never recovers).
* `*html.Node` values that may be nil are modelled as `Option HNode`.
* The external collaborators (htmlquery, strconv, strings, regexp, time) are
  modelled by small Lean functions that follow their documented behaviour on
  the concrete arguments the package passes them.
-/

namespace HNScraper

/-- The distinct error values the package can return, following the spec's
taxonomy: `invalidInput` for the two `errors.New` validation messages,
`unexpectedFormat` for `errors.New(errorMsg)`, `atoiErr` for an error
returned by `strconv.Atoi` (carrying the offending input), `timeErr` for an
error returned by `time.Parse`, and `fetchErr` for an error returned by
`htmlquery.LoadURL`. -/
inductive GoError : Type where
  | invalidInput (msg : String)
  | unexpectedFormat
  | atoiErr (input : String)
  | timeErr (input : String)
  | fetchErr (msg : String)
deriving DecidableEq, Repr

/-- Result of a Go function returning `(α, error)`: a normal return carrying
the returned value and the (possibly nil) error, or a runtime panic. -/
inductive GoResult (α : Type) : Type where
  | ret (val : α) (err : Option GoError)
  | crash (msg : String)
deriving DecidableEq, Repr

/-- A `time.Time` restricted to what the package uses: the calendar fields
parsed by `time.Parse("2006-01-02T15:04:05", s)`. -/
structure GoTime : Type where
  year : Nat
  month : Nat
  day : Nat
  hour : Nat
  minute : Nat
  second : Nat
deriving DecidableEq, Repr

/-- The zero `time.Time` (January 1 of year 1, midnight). -/
def zeroTime : GoTime := ⟨1, 1, 1, 0, 0, 0⟩

/-- The `Post` struct of src/hnscraper.go, fields in source order. -/
structure Post : Type where
  Rank : Int
  Title : String
  Score : Int
  By : String
  URL : String
  NumComments : Int
  TimePosted : GoTime
deriving DecidableEq, Repr

/-- The `Page` struct of src/hnscraper.go. -/
structure Page : Type where
  Posts : List Post
  Num : Int
  Retrieved : GoTime
deriving DecidableEq, Repr

/-- The zero value of `Post` (`var post Post`). -/
def zeroPost : Post := ⟨0, "", 0, "", "", 0, zeroTime⟩

/-- The zero value of `Page` (`var page Page`). -/
def zeroPage : Page := ⟨[], 0, zeroTime⟩

/-! Part: String helpers modelling the Go standard library -/

/-- Is `pat` a prefix of the second list? -/
def isPrefixOfL : List Char → List Char → Bool
  | [], _ => true
  | _ :: _, [] => false
  | p :: ps, c :: cs => p == c && isPrefixOfL ps cs

/-- Does `pat` occur as a contiguous sublist? -/
def listContainsSub (pat : List Char) : List Char → Bool
  | [] => pat.isEmpty
  | c :: rest => isPrefixOfL pat (c :: rest) || listContainsSub pat rest

/-- Models `strings.Contains(s, sub)`. -/
def strContains (s sub : String) : Bool :=
  listContainsSub sub.data s.data

/-- Fuel-indexed worker for `goRemovePat`; the fuel is always at least the
length of the list, so the fuel-exhausted branch is never taken. -/
def removePatAux (pat : List Char) : Nat → List Char → List Char
  | _, [] => []
  | 0, l => l
  | fuel + 1, c :: rest =>
    if isPrefixOfL pat (c :: rest) then
      removePatAux pat fuel (List.drop (pat.length - 1) rest)
    else
      c :: removePatAux pat fuel rest

/-- Models `strings.ReplaceAll(s, pat, "")` for a nonempty pattern: delete
every (leftmost, non-overlapping) occurrence of `pat` in `s`. -/
def goRemovePat (s pat : String) : String :=
  ⟨removePatAux pat.data s.data.length s.data⟩

/-- Models `strings.TrimSpace`. -/
def trimSpace (s : String) : String :=
  ⟨((s.data.dropWhile Char.isWhitespace).reverse.dropWhile Char.isWhitespace).reverse⟩

/-- Decimal value of a list of digit characters (most significant first). -/
def parseDigits (l : List Char) : Nat :=
  l.foldl (fun a c => a * 10 + (c.toNat - 48)) 0

/-- Models `strconv.Atoi`: an optional sign followed by at least one digit;
anything else is an error carrying the offending input. -/
def atoi (s : String) : Except GoError Int :=
  match s.data with
  | [] => .error (.atoiErr s)
  | c :: rest =>
    let ds := if c == '+' || c == '-' then rest else c :: rest
    if ds.isEmpty || !ds.all Char.isDigit then .error (.atoiErr s)
    else if c == '-' then .ok (-(parseDigits ds : Int))
    else .ok ((parseDigits ds : Int))

/-- Models `regexp.MustCompile("[^0-9]+").ReplaceAllLiteralString(s, "")`
(the regexp in `getNumComments`): delete every non-digit character. -/
def stripNonDigits (s : String) : String :=
  ⟨s.data.filter Char.isDigit⟩

/-- Models `time.Parse("2006-01-02T15:04:05", s)`: the external time library
accepts exactly a `YYYY-MM-DDTHH:MM:SS` digit layout with in-range calendar
fields and otherwise returns an error. -/
def timeParse (s : String) : Except GoError GoTime :=
  match s.data with
  | [y1, y2, y3, y4, '-', m1, m2, '-', d1, d2, 'T',
     h1, h2, ':', n1, n2, ':', s1, s2] =>
    if ([y1, y2, y3, y4, m1, m2, d1, d2, h1, h2, n1, n2, s1, s2].all
          Char.isDigit) then
      let mo := parseDigits [m1, m2]
      let da := parseDigits [d1, d2]
      let ho := parseDigits [h1, h2]
      let mi := parseDigits [n1, n2]
      let se := parseDigits [s1, s2]
      if 1 ≤ mo ∧ mo ≤ 12 ∧ 1 ≤ da ∧ da ≤ 31 ∧ ho ≤ 23 ∧ mi ≤ 59 ∧ se ≤ 59 then
        .ok ⟨parseDigits [y1, y2, y3, y4], mo, da, ho, mi, se⟩
      else .error (.timeErr s)
    else .error (.timeErr s)
  | _ => .error (.timeErr s)

/-- Go string slicing `s[:j]` where `j` may be negative or too large, in
which case the program panics with a slice-bounds error. -/
def goSliceUpTo (s : String) (j : Int) : GoResult String :=
  if 0 ≤ j ∧ j ≤ (s.length : Int) then .ret ⟨s.data.take j.toNat⟩ none
  else .crash "runtime error: slice bounds out of range"

/-! Part: The HTML document tree

`golang.org/x/net/html` represents a parsed document as a tree of nodes; we
model element and text nodes (the only kinds the queries of this package can
select or read). The children of an element are a sibling list, given as the
mutually inductive `HNodes`. -/

mutual
inductive HNode : Type where
  | elem (tag : String) (attrs : List (String × String)) (children : HNodes)
  | text (s : String)
deriving DecidableEq, Repr

inductive HNodes : Type where
  | nil
  | cons (n : HNode) (rest : HNodes)
deriving DecidableEq, Repr
end

/-- Build a sibling list from a Lean list. -/
def nodesOf : List HNode → HNodes
  | [] => .nil
  | n :: r => .cons n (nodesOf r)

/-- The children of a node, as a Lean list. -/
def HNode.childList : HNode → List HNode
  | .elem _ _ cs =>
    let rec toL : HNodes → List HNode
      | .nil => []
      | .cons n r => n :: toL r
    toL cs
  | .text _ => []

mutual
/-- Models `htmlquery.InnerText`: concatenation of every text node in the
subtree, in document order. -/
def HNode.innerText : HNode → String
  | .elem _ _ cs => cs.innerTextAll
  | .text s => s

def HNodes.innerTextAll : HNodes → String
  | .nil => ""
  | .cons n r => n.innerText ++ r.innerTextAll
end

mutual
/-- The node and all its descendants, in document order. -/
def HNode.descendantsSelf : HNode → List HNode
  | .elem t a cs => .elem t a cs :: cs.descAll
  | .text s => [.text s]

def HNodes.descAll : HNodes → List HNode
  | .nil => []
  | .cons n r => n.descendantsSelf ++ r.descAll
end

/-- Models `htmlquery.SelectAttr(node, name)`: the value of the attribute,
or the empty string when the attribute is absent. -/
def HNode.selectAttr : HNode → String → String
  | .elem _ attrs _, name =>
    match attrs.find? (fun p => p.1 == name) with
    | some p => p.2
    | none => ""
  | .text _, _ => ""

/-- Does the node have the given element tag? -/
def HNode.tagIs (n : HNode) (t : String) : Bool :=
  match n with
  | .elem tg _ _ => tg == t
  | .text _ => false

/-- XPath predicate `contains(@class, sub)`. -/
def HNode.classContains (n : HNode) (sub : String) : Bool :=
  strContains (n.selectAttr "class") sub

/-- All children of all the listed nodes, in document order. -/
def childrenOfAll (l : List HNode) : List HNode :=
  (l.map HNode.childList).flatten

/-- The `td` children of a node. -/
def tdChildren (node : HNode) : List HNode :=
  node.childList.filter (fun c => c.tagIs "td")

/-- Models `htmlquery.Find(node, "/td/a")` (in `getTitle`). -/
def findTitleAnchors (node : HNode) : List HNode :=
  (childrenOfAll (tdChildren node)).filter (fun c => c.tagIs "a")

/-- Models `htmlquery.Find(node, "/td/span[contains(@class, 'rank')]")`
(in `getRank`). -/
def findRankSpans (node : HNode) : List HNode :=
  (childrenOfAll (tdChildren node)).filter
    (fun c => c.tagIs "span" && c.classContains "rank")

/-- Models `htmlquery.Find(node, "/td/a[contains(@class, 'titlelink')]")`
(in `getURL`). -/
def findURLAnchors (node : HNode) : List HNode :=
  (childrenOfAll (tdChildren node)).filter
    (fun c => c.tagIs "a" && c.classContains "titlelink")

/-- Models `htmlquery.Find(node, "/a[contains(@class, 'hnuser')]")`
(in `getAuthor`). -/
def findAuthorAnchors (node : HNode) : List HNode :=
  node.childList.filter (fun c => c.tagIs "a" && c.classContains "hnuser")

/-- Models `htmlquery.Find(node, "/span[contains(@class, 'score')]")`
(in `getPoints`). -/
def findScoreSpans (node : HNode) : List HNode :=
  node.childList.filter (fun c => c.tagIs "span" && c.classContains "score")

/-- Modelled from the spec: `getNumComments` queries the external library
with the selector `"/a]"`; the spec's collaborator contract (the
comment-count extractor scans "any number of anchor elements" of the subtext
cell) resolves this query to the anchor children of the node. -/
def findCommentAnchors (node : HNode) : List HNode :=
  node.childList.filter (fun c => c.tagIs "a")

/-- Models `htmlquery.Find(node, "/span[contains(@class, 'age')]")`
(in `getTimePosted`). -/
def findAgeSpans (node : HNode) : List HNode :=
  node.childList.filter (fun c => c.tagIs "span" && c.classContains "age")

/-- Models `htmlquery.FindOne(node, "/td[contains(@class, 'subtext')]")`
(in `ScrapePage`): the first matching node, or `none` (Go: nil). -/
def findSubtextCell (node : HNode) : Option HNode :=
  (node.childList.filter
    (fun c => c.tagIs "td" && c.classContains "subtext")).head?

/-- Models
`htmlquery.Find(doc, "//table[contains(@class, 'itemlist')]/tbody/tr")`
(in `ScrapePage`): every `tr` child of a `tbody` child of any descendant
`table` whose class contains `itemlist`, in document order. -/
def findListRows (doc : HNode) : List HNode :=
  let tables := (childrenOfAll doc.descendantsSelf).filter
    (fun n => n.tagIs "table" && n.classContains "itemlist")
  let tbodies := (childrenOfAll tables).filter (fun n => n.tagIs "tbody")
  (childrenOfAll tbodies).filter (fun n => n.tagIs "tr")

/-! Part: The seven field extractors (src/hnscraper.go lines 144-251)

The four subtext extractors take `Option HNode` because `ScrapePage` passes
the result of `FindOne`, which is nil when no subtext cell matches; querying
a nil node dereferences it and panics. -/

/-- Message of the `errors.New(errorMsg)` calls: the constant `errorMsg`
("could not process: page formatted unexpectedly") is represented by the
`GoError.unexpectedFormat` constructor. -/
def nilDeref : String := "runtime error: nil pointer dereference"

/-- Embeds `getTitle` (src/hnscraper.go 144-153). -/
def getTitle (node : HNode) : GoResult String :=
  match findTitleAnchors node with
  | [q] => .ret q.innerText none
  | _ => .ret "" (some .unexpectedFormat)

/-- Embeds `getRank` (src/hnscraper.go 155-168): note the unguarded slice
`rankStr[:len(rankStr)-1]`, which panics when the span's text is empty. -/
def getRank (node : HNode) : GoResult Int :=
  match findRankSpans node with
  | [q] =>
    let rankStr := q.innerText
    match goSliceUpTo rankStr ((rankStr.length : Int) - 1) with
    | .crash m => .crash m
    | .ret s _ =>
      match atoi s with
      | .ok n => .ret n none
      | .error e => .ret 0 (some e)
  | _ => .ret 0 (some .unexpectedFormat)

/-- Embeds `getURL` (src/hnscraper.go 170-179). -/
def getURL (node : HNode) : GoResult String :=
  match findURLAnchors node with
  | [q] => .ret (q.selectAttr "href") none
  | _ => .ret "" (some .unexpectedFormat)

/-- Embeds `getAuthor` (src/hnscraper.go 181-189): zero or one author anchor;
absence is not an error. -/
def getAuthor : Option HNode → GoResult String
  | none => .crash nilDeref
  | some node =>
    match findAuthorAnchors node with
    | [q] => .ret q.innerText none
    | _ => .ret "" none

/-- Embeds `getPoints` (src/hnscraper.go 191-205): strips the literal `"points"`
(and only that spelling) plus surrounding whitespace, then parses. -/
def getPoints : Option HNode → GoResult Int
  | none => .crash nilDeref
  | some node =>
    match findScoreSpans node with
    | [q] =>
      match atoi (trimSpace (goRemovePat q.innerText "points")) with
      | .ok n => .ret n none
      | .error e => .ret 0 (some e)
    | _ => .ret 0 (some .unexpectedFormat)

/-- The anchor-scanning loop of `getNumComments`: returns `none` when an
anchor whose text contains "discuss" is reached (the function returns 0
there), otherwise the final value of `commentsStr`, which is overwritten
with the digit-stripped text of each anchor containing "comment". -/
def commentsScan : List HNode → String → Option String
  | [], acc => some acc
  | a :: rest, acc =>
    let linkStr := a.innerText
    if strContains linkStr "discuss" then none
    else if strContains linkStr "comment" then
      commentsScan rest (stripNonDigits linkStr)
    else commentsScan rest acc

/-- Embeds `getNumComments` (src/hnscraper.go 207-236). The regexp
`[^0-9]+` always compiles, so the compile-error branch is dead. -/
def getNumComments : Option HNode → GoResult Int
  | none => .crash nilDeref
  | some node =>
    match commentsScan (findCommentAnchors node) "" with
    | none => .ret 0 none
    | some commentsStr =>
      if commentsStr = "" then .ret 0 (some .unexpectedFormat)
      else
        match atoi commentsStr with
        | .ok n => .ret n none
        | .error e => .ret 0 (some e)

/-- Embeds `getTimePosted` (src/hnscraper.go 238-251). -/
def getTimePosted : Option HNode → GoResult GoTime
  | none => .crash nilDeref
  | some node =>
    match findAgeSpans node with
    | [q] =>
      match timeParse (q.selectAttr "title") with
      | .ok t => .ret t none
      | .error e => .ret zeroTime (some e)
    | _ => .ret zeroTime (some .unexpectedFormat)

/-! Part: Row and page orchestration -/

/-- The `x, err := f(...); if err != nil { return zero, err }` pattern of
`getPost`: a panic propagates, a non-nil error makes the caller return its
own zero value with that error, otherwise the computation continues. -/
def gbind {α β : Type} (r : GoResult α) (zero : β) (k : α → GoResult β) :
    GoResult β :=
  match r with
  | .crash m => .crash m
  | .ret _ (some e) => .ret zero (some e)
  | .ret v none => k v

/-- Embeds `getPost` (src/hnscraper.go 91-140): the seven extractors in source
order; the first non-nil error is returned with the zero `Post`. -/
def getPost (titleNode : HNode) (subtextNode : Option HNode) : GoResult Post :=
  gbind (getTitle titleNode) zeroPost fun title =>
  gbind (getRank titleNode) zeroPost fun rank =>
  gbind (getURL titleNode) zeroPost fun url =>
  gbind (getAuthor subtextNode) zeroPost fun author =>
  gbind (getPoints subtextNode) zeroPost fun points =>
  gbind (getNumComments subtextNode) zeroPost fun numComments =>
  gbind (getTimePosted subtextNode) zeroPost fun timePosted =>
  .ret ⟨rank, title, points, author, url, numComments, timePosted⟩ none

/-- The row loop of `ScrapePage` (src/hnscraper.go 54-65): rows are walked
in groups of three (`for i := 0; i < len(listNodes)-2; i += 3`) — title row,
subtext row, spacer row; a `getPost` error makes `ScrapePage` return the
zero `Page` (the accumulated posts are discarded) with that error; after
the loop the page is assembled from the accumulated posts. -/
def pageLoop (now : GoTime) (pageNum : Int) :
    List HNode → List Post → GoResult Page
  | t :: s :: _ :: rest, acc =>
    match getPost t (findSubtextCell s) with
    | .crash m => .crash m
    | .ret _ (some e) => .ret zeroPage (some e)
    | .ret post none => pageLoop now pageNum rest (acc ++ [post])
  | _, acc => .ret ⟨acc, pageNum, now⟩ none

/-- Embeds the constant `hackernewsURL` (src/hnscraper.go 33). -/
def hackernewsURL : String := "https://news.ycombinator.com/news?p="

/-- Embeds `ScrapePage` (src/hnscraper.go 37-66), parameterized by the external
page fetcher (`htmlquery.LoadURL`) and by the instant `time.Now()` returns
after the fetch completes. -/
def ScrapePage (fetch : String → Except GoError HNode) (now : GoTime)
    (pageNum : Int) : GoResult Page :=
  if pageNum < 1 then
    .ret zeroPage (some (.invalidInput "page number must be a positive integer"))
  else
    match fetch (hackernewsURL ++ toString pageNum) with
    | .error e => .ret zeroPage (some e)
    | .ok doc => pageLoop now pageNum (findListRows doc) []

/-- The page loop of `ScrapeMultPages` (src/hnscraper.go 79-88):
`for i := startPage; i <= endPage; i++`, appending each scraped page and
returning the accumulated pages with the first error encountered. -/
def multLoop (scrape : Int → GoResult Page) (i e : Int) (acc : List Page) :
    GoResult (List Page) :=
  if i ≤ e then
    match scrape i with
    | .crash m => .crash m
    | .ret _ (some err) => .ret acc (some err)
    | .ret p none => multLoop scrape (i + 1) e (acc ++ [p])
  else .ret acc none
termination_by (e + 1 - i).toNat
decreasing_by omega

/-- Embeds `ScrapeMultPages` (src/hnscraper.go 69-89), parameterized like
`ScrapePage`. -/
def ScrapeMultPages (fetch : String → Except GoError HNode) (now : GoTime)
    (startPage endPage : Int) : GoResult (List Page) :=
  if startPage < 1 ∨ endPage < 1 then
    .ret [] (some (.invalidInput "page numbers must be positive integers"))
  else if startPage > endPage then
    .ret [] (some (.invalidInput
      "starting page number cannot be larger than ending page number"))
  else multLoop (fun i => ScrapePage fetch now i) startPage endPage []

/-! Part: Concrete test documents -/

/-- An element with one class attribute and a single text child. -/
def mkT (tag cls txt : String) : HNode :=
  .elem tag [("class", cls)] (nodesOf [.text txt])

/-- A `td` with a class and the given children. -/
def mkTd (cls : String) (cs : List HNode) : HNode :=
  .elem "td" [("class", cls)] (nodesOf cs)

/-- A `tr` with the given children. -/
def mkTr (cs : List HNode) : HNode := .elem "tr" [] (nodesOf cs)

/-- A fixed instant standing for the value of `time.Now()`. -/
def t0 : GoTime := ⟨2, 2, 2, 2, 2, 2⟩

/-- A fetcher whose every request fails. -/
def fetchBoom : String → Except GoError HNode :=
  fun _ => .error (.fetchErr "network down")

/-- A document with no post-listing table at all. -/
def emptyDoc : HNode := .elem "html" [] .nil

/-- A fetcher that returns the table-less document for every request. -/
def fetchEmptyDoc : String → Except GoError HNode := fun _ => .ok emptyDoc

/-- A title row whose rank span has the given text: one `td` holding the
rank span and one `td` holding a single titlelink anchor. -/
def titleRow (rankText : String) : HNode :=
  mkTr [mkTd "" [mkT "span" "rank" rankText],
        mkTd "" [.elem "a" [("class", "titlelink"), ("href", "http://x")]
                   (nodesOf [.text "T"])]]

/-- A subtext cell with score "10 points", author "alice", a "4 comments"
anchor and a well-formed age span. -/
def subtextGood : HNode :=
  mkTd "subtext"
    [mkT "span" "score" "10 points", mkT "a" "hnuser" "alice",
     mkT "a" "" "4 comments",
     .elem "span" [("class", "age"), ("title", "2021-01-02T03:04:05")]
       (nodesOf [.text "1 day ago"])]

/-- One title/subtext/spacer row triple with the given rank text. -/
def rowTriple (rankText : String) : List HNode :=
  [titleRow rankText, mkTr [subtextGood], mkTr []]

/-- Wrap rows into a document with the post-listing table. -/
def docOfRows (rows : List HNode) : HNode :=
  .elem "html" []
    (nodesOf [.elem "table" [("class", "itemlist")]
      (nodesOf [.elem "tbody" [] (nodesOf rows)])])

/-! Part: C5 — input validation happens before any network activity -/

/-- C5: for every `pageNum < 1`, `ScrapePage` returns an `InvalidInput`
error (and the zero `Page`) regardless of the fetcher, and for every pair
with `start < 1` or `end < 1` or `start > end`, `ScrapeMultPages` returns an
`InvalidInput` error regardless of the fetcher; since the result is the same
for every fetcher, no fetch (and no invocation of `ScrapePage` from
`ScrapeMultPages`) can influence it — validation precedes all network
activity. -/
theorem scrape_invalid_input_no_fetch :
    (∀ (fetch : String → Except GoError HNode) (now : GoTime) (p : Int),
      p < 1 → ScrapePage fetch now p =
        .ret zeroPage (some (.invalidInput "page number must be a positive integer"))) ∧
    (∀ (fetch : String → Except GoError HNode) (now : GoTime) (s e : Int),
      s < 1 ∨ e < 1 → ScrapeMultPages fetch now s e =
        .ret [] (some (.invalidInput "page numbers must be positive integers"))) ∧
    (∀ (fetch : String → Except GoError HNode) (now : GoTime) (s e : Int),
      1 ≤ s → 1 ≤ e → e < s → ScrapeMultPages fetch now s e =
        .ret [] (some (.invalidInput
          "starting page number cannot be larger than ending page number"))) := by
  refine ⟨fun fetch now p hp => ?_, fun fetch now s e h => ?_,
    fun fetch now s e hs he hlt => ?_⟩
  · rw [ScrapePage, if_pos hp]
  · rw [ScrapeMultPages, if_pos h]
  · rw [ScrapeMultPages, if_neg (by omega), if_pos (by omega)]

/-- C5 witness: even with a fetcher that fails every request, the invalid
inputs 0, (0,5) and (3,2) produce exactly the `InvalidInput` returns. -/
theorem scrape_invalid_input_no_fetch_witness :
    ScrapePage fetchBoom t0 0 =
      .ret zeroPage (some (.invalidInput "page number must be a positive integer")) ∧
    ScrapeMultPages fetchBoom t0 0 5 =
      .ret [] (some (.invalidInput "page numbers must be positive integers")) ∧
    ScrapeMultPages fetchBoom t0 3 2 =
      .ret [] (some (.invalidInput
        "starting page number cannot be larger than ending page number")) :=
  ⟨scrape_invalid_input_no_fetch.1 fetchBoom t0 0 (by omega),
   scrape_invalid_input_no_fetch.2.1 fetchBoom t0 0 5 (Or.inl (by omega)),
   scrape_invalid_input_no_fetch.2.2 fetchBoom t0 3 2 (by omega) (by omega) (by omega)⟩

/-! Part: C3 — the extraction path is not total: `getRank` panics -/

/-- A document whose first (and only) row triple has an empty rank span. -/
def emptyRankDoc : HNode := docOfRows (rowTriple "")

/-- C3 is a code bug: the claim (and the spec) say every operation reports
failure only through its returned error value and never panics, naming the
rank span with empty visible text; but `getRank` evaluates
`rankStr[:len(rankStr)-1]` without a bounds check, which for the empty
string is `rankStr[:-1]` — a runtime panic — and the panic propagates out of
`getPost`, `pageLoop` and `ScrapePage`. -/
theorem getRank_empty_text_panics :
    getRank (titleRow "") = .crash "runtime error: slice bounds out of range" ∧
    ScrapePage (fun _ => .ok emptyRankDoc) t0 1 =
      .crash "runtime error: slice bounds out of range" := by decide

/-! Part: C2 — `getPoints` is not pluralization-agnostic -/

/-- A subtext cell whose single score span reads "1 point". -/
def onePointCell : HNode := mkTd "subtext" [mkT "span" "score" "1 point"]

/-- A subtext cell whose single score span reads "1234 points". -/
def manyPointsCell : HNode := mkTd "subtext" [mkT "span" "score" "1234 points"]

/-- C2 counterexample: the claim says `getPoints` strips the word for points
pluralization-agnostically so that "1 point" yields 1; in fact the code
removes only the literal `"points"`, so on "1 point" nothing is stripped and
`strconv.Atoi("1 point")` fails — the extractor returns an error, not 1. -/
theorem getPoints_one_point_counterexample :
    getPoints (some onePointCell) = .ret 0 (some (.atoiErr "1 point")) ∧
    getPoints (some onePointCell) ≠ .ret 1 none := by decide

/-- C2 (amended): for a subtext node whose single score-styled span has
visible text "1234 points", `getPoints` returns 1234 — the extractor strips
the literal word "points" (and only that spelling) plus surrounding
whitespace and parses the remainder as an integer; the singular "1 point" is
not stripped and produces an `Atoi` parse error rather than 1. -/
theorem getPoints_points_literal (node q : HNode)
    (hq : findScoreSpans node = [q]) :
    (q.innerText = "1234 points" → getPoints (some node) = .ret 1234 none) ∧
    (q.innerText = "1 point" →
      getPoints (some node) = .ret 0 (some (.atoiErr "1 point"))) := by
  constructor <;> intro ht <;> simp only [getPoints, hq, ht] <;> decide

/-- C2 witness: the amended theorem applied to the two concrete cells. -/
theorem getPoints_points_literal_witness :
    getPoints (some manyPointsCell) = .ret 1234 none ∧
    getPoints (some onePointCell) = .ret 0 (some (.atoiErr "1 point")) :=
  ⟨(getPoints_points_literal manyPointsCell (mkT "span" "score" "1234 points")
      (by decide)).1 (by decide),
   (getPoints_points_literal onePointCell (mkT "span" "score" "1 point")
      (by decide)).2 (by decide)⟩

/-! Part: C4 — `getRank` strips the final character, whatever it is -/

/-- Slicing off the final character of a pushed string recovers the
original string (and does not panic, the length being positive). -/
theorem goSliceUpTo_push (s : String) (c : Char) :
    goSliceUpTo (s.push c) (((s.push c).length : Int) - 1) = .ret s none := by
  have hdata : (s.push c).data = s.data ++ [c] := rfl
  have hlen : (s.push c).length = s.length + 1 := by simp
  have hsl : s.length = s.data.length := rfl
  rw [goSliceUpTo, if_pos (by omega)]
  have htoNat : (((s.push c).length : Int) - 1).toNat = s.data.length := by omega
  rw [htoNat, hdata, List.take_left]

/-- Evaluation of `getRank` when the single rank span's text ends in the
character `c`: the result is `Atoi` of the text with `c` removed. -/
theorem getRank_eval (node q : HNode) (s : String) (c : Char)
    (hq : findRankSpans node = [q]) (ht : q.innerText = s.push c) :
    getRank node = (match atoi s with
      | .ok n => .ret n none
      | .error e => .ret 0 (some e)) := by
  rw [getRank.eq_def, hq]
  simp only [ht, goSliceUpTo_push]

/-- A title row whose rank span reads "42", with no trailing period. -/
def rank42Row : HNode := titleRow "42"

/-- C4 counterexample: the claim says `getRank` strips the trailing period
character and never misparses text lacking a trailing period; in fact the
code unconditionally drops the last character (`rankStr[:len(rankStr)-1]`),
so the period-less rank text "42" is misparsed as 4 instead of yielding an
error or 42. -/
theorem getRank_no_period_counterexample :
    (findRankSpans rank42Row).map HNode.innerText = ["42"] ∧
    getRank rank42Row = .ret 4 none ∧
    getRank rank42Row ≠ .ret 42 none := by decide

/-- C4 (amended): when the single rank span's visible text is any string
followed by one final character (period or not), `getRank` drops that final
character and returns `strconv.Atoi` of the remainder — 7 for "7.", but also
4 for "42"; an `Atoi` failure on the remainder is returned as that error,
and a missing match yields `UnexpectedFormat`. -/
theorem getRank_strips_final_char :
    (∀ (node q : HNode) (s : String) (c : Char) (n : Int),
      findRankSpans node = [q] → q.innerText = s.push c → atoi s = .ok n →
        getRank node = .ret n none) ∧
    (∀ (node q : HNode) (s : String) (c : Char) (e : GoError),
      findRankSpans node = [q] → q.innerText = s.push c → atoi s = .error e →
        getRank node = .ret 0 (some e)) ∧
    (∀ node : HNode, findRankSpans node = [] →
        getRank node = .ret 0 (some .unexpectedFormat)) := by
  refine ⟨fun node q s c n hq ht ha => ?_, fun node q s c e hq ht ha => ?_,
    fun node hq => ?_⟩
  · rw [getRank_eval node q s c hq ht, ha]
  · rw [getRank_eval node q s c hq ht, ha]
  · rw [getRank.eq_def, hq]

/-- C4 witness: the amended theorem applied to rank texts "7." (parsed as
7), "42" (misparsed as 4), "ab." (Atoi error) and to a node with no rank
span at all. -/
theorem getRank_strips_final_char_witness :
    getRank (titleRow "7.") = .ret 7 none ∧
    getRank rank42Row = .ret 4 none ∧
    getRank (titleRow "ab.") = .ret 0 (some (.atoiErr "ab")) ∧
    getRank emptyDoc = .ret 0 (some .unexpectedFormat) :=
  ⟨getRank_strips_final_char.1 (titleRow "7.") (mkT "span" "rank" "7.") "7" '.' 7
      (by decide) (by decide) rfl,
   getRank_strips_final_char.1 rank42Row (mkT "span" "rank" "42") "4" '2' 4
      (by decide) (by decide) rfl,
   getRank_strips_final_char.2.1 (titleRow "ab.") (mkT "span" "rank" "ab.") "ab" '.'
      (.atoiErr "ab") (by decide) (by decide) rfl,
   getRank_strips_final_char.2.2 emptyDoc (by decide)⟩

/-! Part: C1 — comment-count extraction -/

/-- Spec-side restatement (for the amended C1): if any anchor text contains
"discuss" the count is 0 with no error; otherwise the extractor uses the
digit-stripped text of the LAST anchor containing "comment" — parsed as an
integer when nonempty, and an `UnexpectedFormat` error when it is empty or
when no anchor matches either pattern. -/
def numCommentsSpec (texts : List String) : GoResult Int :=
  if texts.any (fun t => strContains t "discuss") then .ret 0 none
  else
    match (texts.filter (fun t => strContains t "comment")).getLast? with
    | none => .ret 0 (some .unexpectedFormat)
    | some t =>
      if stripNonDigits t = "" then .ret 0 (some .unexpectedFormat)
      else
        match atoi (stripNonDigits t) with
        | .ok n => .ret n none
        | .error e => .ret 0 (some e)

/-- The last element of a nonempty list, via a default for the tail. -/
theorem lastD_eq (a : String) (l : List String) :
    (a :: l).getLast? =
      some (match l.getLast? with | none => a | some x => x) := by
  induction l generalizing a with
  | nil => rfl
  | cons b m ih => rw [List.getLast?_cons_cons, ih b]

/-- The anchor loop of `getNumComments` returns `none` exactly when some
anchor text contains "discuss", and otherwise ends with `commentsStr` equal
to the digit-stripped text of the last anchor containing "comment" (or the
initial accumulator when there is none). -/
theorem commentsScan_char (l : List HNode) : ∀ acc : String,
    commentsScan l acc =
      (if (l.map HNode.innerText).any (fun t => strContains t "discuss") then
        none
       else
        some (match ((l.map HNode.innerText).filter
                  (fun t => strContains t "comment")).getLast? with
              | none => acc
              | some t => stripNonDigits t)) := by
  induction l with
  | nil => intro acc; rfl
  | cons a rest ih =>
    intro acc
    simp only [commentsScan, List.map_cons, List.any_cons, List.filter_cons]
    by_cases hd : strContains a.innerText "discuss"
    · simp [hd]
    · by_cases hc : strContains a.innerText "comment"
      · simp only [hd, hc, Bool.false_or, if_true, ih]
        by_cases hrest : (rest.map HNode.innerText).any
            (fun t => strContains t "discuss")
        · simp [hrest]
        · simp only [hrest, if_false, Bool.false_eq_true]
          rw [lastD_eq]
          cases hl : ((rest.map HNode.innerText).filter
              (fun t => strContains t "comment")).getLast? <;> simp [hl]
      · simp [hd, hc, ih]

/-- A subtext cell with two comment-matching anchors, the second of which
has no digits. -/
def twoCommentCell : HNode :=
  mkTd "subtext" [mkT "a" "" "5 comments", mkT "a" "" "add comment"]

/-- C1 counterexample: the claim says that (absent "discuss") if some
anchor's text contains "comment", `getNumComments` returns the integer
obtained by digit-stripping that text, erring only when no anchor matches;
here the anchor "5 comments" matches and digit-strips to 5, yet the code
returns an `UnexpectedFormat` error, because the later anchor
"add comment" overwrote `commentsStr` with the empty string. -/
theorem getNumComments_counterexample :
    (findCommentAnchors twoCommentCell).map HNode.innerText =
      ["5 comments", "add comment"] ∧
    strContains "5 comments" "discuss" = false ∧
    strContains "add comment" "discuss" = false ∧
    strContains "5 comments" "comment" = true ∧
    stripNonDigits "5 comments" = "5" ∧
    getNumComments (some twoCommentCell) = .ret 0 (some .unexpectedFormat) ∧
    getNumComments (some twoCommentCell) ≠ .ret 5 none := by decide

/-- C1 (amended): for every subtext node, `getNumComments` behaves exactly
as `numCommentsSpec` on its anchors' visible texts: 0 with no error if any
text contains "discuss"; otherwise the digit-stripped text of the LAST
anchor containing "comment" parsed as an integer ("42 comments" yields 42,
"1 comment" yields 1); and an `UnexpectedFormat` error when no anchor
matches either pattern — or when the last "comment" match digit-strips to
the empty string. -/
theorem getNumComments_eq_spec (node : HNode) :
    getNumComments (some node) =
      numCommentsSpec ((findCommentAnchors node).map HNode.innerText) := by
  simp only [getNumComments, commentsScan_char, numCommentsSpec]
  by_cases hdisc : ((findCommentAnchors node).map HNode.innerText).any
      (fun t => strContains t "discuss")
  · simp [hdisc]
  · simp only [hdisc, Bool.false_eq_true, if_false]
    cases hl : (((findCommentAnchors node).map HNode.innerText).filter
        (fun t => strContains t "comment")).getLast? with
    | none => simp
    | some t => rfl

/-! Part: Loop lemmas shared by the page-level claims -/

/-- When the row loop returns a non-nil error, the returned page is the
zero `Page`: accumulated posts from earlier rows are discarded. -/
theorem pageLoop_err_zeroPage (now : GoTime) (pn : Int) :
    ∀ (rows : List HNode) (acc : List Post) (pg : Page) (e : GoError),
      pageLoop now pn rows acc = .ret pg (some e) → pg = zeroPage
  | t :: s :: sp :: rest => fun acc pg e h => by
      simp only [pageLoop] at h
      cases hgp : getPost t (findSubtextCell s) with
      | crash m => simp [hgp] at h
      | ret post perr =>
        cases perr with
        | none =>
          simp only [hgp] at h
          exact pageLoop_err_zeroPage now pn rest (acc ++ [post]) pg e h
        | some e2 =>
          simp only [hgp] at h
          obtain ⟨h1, h2⟩ := GoResult.ret.inj h
          exact h1.symm
  | [] => fun acc pg e h => by simp [pageLoop] at h
  | [t] => fun acc pg e h => by simp [pageLoop] at h
  | [t, s] => fun acc pg e h => by simp [pageLoop] at h


/-- The title rows of the processed groups: every first row of a
title/subtext/spacer triple, in order. -/
def groupTitleRows : List HNode → List HNode
  | t :: _ :: _ :: rest => t :: groupTitleRows rest
  | _ => []


/-- The rank `getRank` successfully extracts from a title row, if any. -/
def rankOf (t : HNode) : Option Int :=
  match getRank t with
  | .ret n none => some n
  | _ => none


/-- A `getPost` success implies `getRank` succeeded on the title row with
exactly the `Rank` recorded in the returned post. -/
theorem getPost_ok_rank (t : HNode) (st : Option HNode) (post : Post)
    (h : getPost t st = .ret post none) : getRank t = .ret post.Rank none := by
  rw [getPost] at h
  cases h1 : getTitle t with
  | crash m => rw [h1] at h; simp [gbind] at h
  | ret ttl terr =>
    rw [h1] at h
    cases terr with
    | some e => simp [gbind] at h
    | none =>
      simp only [gbind] at h
      cases h2 : getRank t with
      | crash m => rw [h2] at h; simp [gbind] at h
      | ret rk rerr =>
        rw [h2] at h
        cases rerr with
        | some e => simp [gbind] at h
        | none =>
          simp only [gbind] at h
          cases h3 : getURL t with
          | crash m => rw [h3] at h; simp [gbind] at h
          | ret url uerr =>
            rw [h3] at h
            cases uerr with
            | some e => simp [gbind] at h
            | none =>
              simp only [gbind] at h
              cases h4 : getAuthor st with
              | crash m => rw [h4] at h; simp [gbind] at h
              | ret au aerr =>
                rw [h4] at h
                cases aerr with
                | some e => simp [gbind] at h
                | none =>
                  simp only [gbind] at h
                  cases h5 : getPoints st with
                  | crash m => rw [h5] at h; simp [gbind] at h
                  | ret pts perr =>
                    rw [h5] at h
                    cases perr with
                    | some e => simp [gbind] at h
                    | none =>
                      simp only [gbind] at h
                      cases h6 : getNumComments st with
                      | crash m => rw [h6] at h; simp [gbind] at h
                      | ret nc ncerr =>
                        rw [h6] at h
                        cases ncerr with
                        | some e => simp [gbind] at h
                        | none =>
                          simp only [gbind] at h
                          cases h7 : getTimePosted st with
                          | crash m => rw [h7] at h; simp [gbind] at h
                          | ret tp tperr =>
                            rw [h7] at h
                            cases tperr with
                            | some e => simp [gbind] at h
                            | none =>
                              simp only [gbind] at h
                              obtain ⟨hp, -⟩ := GoResult.ret.inj h
                              subst hp
                              rfl


/-- When the row loop succeeds, the returned page carries the caller's page
number and timestamp, appends one post per full row triple (`length/3` of
them) to the accumulator, and the i-th new post's `Rank` is exactly what
`getRank` extracted from the i-th group's title row. -/
theorem pageLoop_ok_spec (now : GoTime) (pn : Int) :
    ∀ (rows : List HNode) (acc : List Post) (page : Page),
      pageLoop now pn rows acc = .ret page none →
      ∃ ps : List Post, page = ⟨acc ++ ps, pn, now⟩ ∧
        ps.length = rows.length / 3 ∧
        (groupTitleRows rows).map rankOf = ps.map (fun q => some q.Rank)
  | t :: s :: sp :: rest => fun acc page h => by
      simp only [pageLoop] at h
      cases hgp : getPost t (findSubtextCell s) with
      | crash m => simp [hgp] at h
      | ret post perr =>
        cases perr with
        | some e2 => simp [hgp] at h
        | none =>
          simp only [hgp] at h
          obtain ⟨ps, hpage, hlen, hranks⟩ :=
            pageLoop_ok_spec now pn rest (acc ++ [post]) page h
          refine ⟨post :: ps, ?_, ?_, ?_⟩
          · rw [hpage]; simp
          · simp only [List.length_cons, hlen]; omega
          · have hr : rankOf t = some post.Rank := by
              simp [rankOf, getPost_ok_rank t _ post hgp]
            simp only [groupTitleRows, List.map_cons, hranks, hr]
  | [] => fun acc page h => by
      simp only [pageLoop] at h
      obtain ⟨hp, -⟩ := GoResult.ret.inj h
      exact ⟨[], by rw [← hp]; simp, by simp, rfl⟩
  | [t] => fun acc page h => by
      simp only [pageLoop] at h
      obtain ⟨hp, -⟩ := GoResult.ret.inj h
      exact ⟨[], by rw [← hp]; simp, by simp, rfl⟩
  | [t, s] => fun acc page h => by
      simp only [pageLoop] at h
      obtain ⟨hp, -⟩ := GoResult.ret.inj h
      exact ⟨[], by rw [← hp]; simp, by simp, rfl⟩

/-! Part: C7 — all-or-nothing post and page assembly -/

/-- C7: `getPost` runs the seven extractors in the fixed order title, rank,
URL, author, score, comment count, timestamp; the first extractor error is
returned together with the zero-value `Post` (later extractors do not run,
as each clause holds whatever they would return); when all seven succeed the
post is assembled from their values; and after a successful fetch of a valid
page, any error from `ScrapePage` comes with the empty (zero) `Page`,
discarding posts already extracted from earlier rows. -/
theorem getPost_all_or_nothing :
    (∀ (t : HNode) (st : Option HNode) (v : String) (e : GoError),
      getTitle t = .ret v (some e) → getPost t st = .ret zeroPost (some e)) ∧
    (∀ (t : HNode) (st : Option HNode) (ttl : String) (v : Int) (e : GoError),
      getTitle t = .ret ttl none → getRank t = .ret v (some e) →
        getPost t st = .ret zeroPost (some e)) ∧
    (∀ (t : HNode) (st : Option HNode) (ttl : String) (rk : Int) (v : String)
        (e : GoError),
      getTitle t = .ret ttl none → getRank t = .ret rk none →
      getURL t = .ret v (some e) → getPost t st = .ret zeroPost (some e)) ∧
    (∀ (t : HNode) (st : Option HNode) (ttl : String) (rk : Int) (url au : String)
        (v : Int) (e : GoError),
      getTitle t = .ret ttl none → getRank t = .ret rk none →
      getURL t = .ret url none → getAuthor st = .ret au none →
      getPoints st = .ret v (some e) → getPost t st = .ret zeroPost (some e)) ∧
    (∀ (t : HNode) (st : Option HNode) (ttl : String) (rk : Int) (url au : String)
        (pts v : Int) (e : GoError),
      getTitle t = .ret ttl none → getRank t = .ret rk none →
      getURL t = .ret url none → getAuthor st = .ret au none →
      getPoints st = .ret pts none → getNumComments st = .ret v (some e) →
        getPost t st = .ret zeroPost (some e)) ∧
    (∀ (t : HNode) (st : Option HNode) (ttl : String) (rk : Int) (url au : String)
        (pts nc : Int) (v : GoTime) (e : GoError),
      getTitle t = .ret ttl none → getRank t = .ret rk none →
      getURL t = .ret url none → getAuthor st = .ret au none →
      getPoints st = .ret pts none → getNumComments st = .ret nc none →
      getTimePosted st = .ret v (some e) →
        getPost t st = .ret zeroPost (some e)) ∧
    (∀ (t : HNode) (st : Option HNode) (ttl : String) (rk : Int) (url au : String)
        (pts nc : Int) (tp : GoTime),
      getTitle t = .ret ttl none → getRank t = .ret rk none →
      getURL t = .ret url none → getAuthor st = .ret au none →
      getPoints st = .ret pts none → getNumComments st = .ret nc none →
      getTimePosted st = .ret tp none →
        getPost t st = .ret ⟨rk, ttl, pts, au, url, nc, tp⟩ none) ∧
    (∀ (fetch : String → Except GoError HNode) (now : GoTime) (p : Int)
        (doc : HNode) (e : GoError) (pg : Page),
      1 ≤ p → fetch (hackernewsURL ++ toString p) = .ok doc →
      ScrapePage fetch now p = .ret pg (some e) → pg = zeroPage) := by
  refine ⟨fun t st v e h1 => ?_,
    fun t st ttl v e h1 h2 => ?_,
    fun t st ttl rk v e h1 h2 h3 => ?_,
    fun t st ttl rk url au v e h1 h2 h3 h4 h5 => ?_,
    fun t st ttl rk url au pts v e h1 h2 h3 h4 h5 h6 => ?_,
    fun t st ttl rk url au pts nc v e h1 h2 h3 h4 h5 h6 h7 => ?_,
    fun t st ttl rk url au pts nc tp h1 h2 h3 h4 h5 h6 h7 => ?_,
    fun fetch now p doc e pg hp hdoc h => ?_⟩
  · simp only [getPost, gbind, h1]
  · simp only [getPost, gbind, h1, h2]
  · simp only [getPost, gbind, h1, h2, h3]
  · simp only [getPost, gbind, h1, h2, h3, h4, h5]
  · simp only [getPost, gbind, h1, h2, h3, h4, h5, h6]
  · simp only [getPost, gbind, h1, h2, h3, h4, h5, h6, h7]
  · simp only [getPost, gbind, h1, h2, h3, h4, h5, h6, h7]
  · rw [ScrapePage, if_neg (by omega)] at h
    simp only [hdoc] at h
    exact pageLoop_err_zeroPage now p (findListRows doc) [] pg e h

/-- A title row with no anchor at all, so that `getTitle` (the first
extractor) fails. -/
def badTitleRow : HNode := mkTr [mkTd "" [mkT "span" "rank" "5."]]

/-- C7 witness: the failing-title clause and the all-success clause of the
theorem applied to concrete rows. -/
theorem getPost_all_or_nothing_witness :
    getPost badTitleRow (some subtextGood) =
      .ret zeroPost (some .unexpectedFormat) ∧
    getPost (titleRow "5.") (some subtextGood) =
      .ret ⟨5, "T", 10, "alice", "http://x", 4, ⟨2021, 1, 2, 3, 4, 5⟩⟩ none :=
  ⟨getPost_all_or_nothing.1 badTitleRow (some subtextGood) ""
      .unexpectedFormat (by decide),
   getPost_all_or_nothing.2.2.2.2.2.2.1 (titleRow "5.") (some subtextGood)
      "T" 5 "http://x" "alice" 10 4 ⟨2021, 1, 2, 3, 4, 5⟩
      (by decide) (by decide) (by decide) (by decide) (by decide) (by decide)
      (by decide)⟩

/-! Part: Loop lemmas for `ScrapeMultPages` -/

/-- Shifting the base of an indexed page list by one position. -/
theorem rangeShift (pg : Int → Page) (i k : Int) (m : Nat)
    (hn : (k - i).toNat = m + 1) :
    acc ++ ([pg i] ++ (List.range (k - (i + 1)).toNat).map
        (fun j : Nat => pg (i + 1 + (j : Int)))) =
    acc ++ (List.range (m + 1)).map (fun j : Nat => pg (i + (j : Int))) := by
  congr 1
  rw [List.range_succ_eq_map, List.map_cons, List.singleton_append]
  congr 1
  · simp
  rw [List.map_map]
  have hm : (k - (i + 1)).toNat = m := by omega
  rw [hm]
  refine List.map_congr_left (fun a ha => ?_)
  simp only [Function.comp_apply]
  congr 1
  push_cast
  ring


/-- If every page from `i` up to (but excluding) `k` scrapes cleanly and
page `k` fails, the loop returns the accumulated pages for `i..k-1` in
ascending order together with that error. -/
theorem multLoop_stops_at_error (scrape : Int → GoResult Page) (pg : Int → Page)
    (e k : Int) (err : GoError) (z : Page) (hke : k ≤ e)
    (hk : scrape k = .ret z (some err)) :
    ∀ (n : Nat) (i : Int) (acc : List Page), (k - i).toNat = n → i ≤ k →
      (∀ j, i ≤ j → j < k → scrape j = .ret (pg j) none) →
      multLoop scrape i e acc =
        .ret (acc ++ (List.range (k - i).toNat).map
          (fun j : Nat => pg (i + (j : Int)))) (some err) := by
  intro n
  induction n with
  | zero =>
    intro i acc hn hik hok
    have hik2 : i = k := by omega
    subst hik2
    rw [multLoop, if_pos (by omega)]
    simp only [hk, hn, List.range_zero, List.map_nil, List.append_nil]
  | succ m ih =>
    intro i acc hn hik hok
    have hik2 : i < k := by omega
    rw [multLoop, if_pos (by omega)]
    simp only [hok i le_rfl hik2]
    rw [ih (i + 1) (acc ++ [pg i]) (by omega) (by omega)
      (fun j hj1 hj2 => hok j (by omega) hj2)]
    rw [hn, List.append_assoc, rangeShift pg i k m hn]


/-- If every page from `i` to `e` scrapes cleanly, the loop returns all of
them in ascending order with no error. -/
theorem multLoop_all_ok (scrape : Int → GoResult Page) (pg : Int → Page)
    (e : Int) :
    ∀ (n : Nat) (i : Int) (acc : List Page), (e + 1 - i).toNat = n →
      (∀ j, i ≤ j → j ≤ e → scrape j = .ret (pg j) none) →
      multLoop scrape i e acc =
        .ret (acc ++ (List.range (e + 1 - i).toNat).map
          (fun j : Nat => pg (i + (j : Int)))) none := by
  intro n
  induction n with
  | zero =>
    intro i acc hn hok
    rw [multLoop, if_neg (by omega)]
    simp only [hn, List.range_zero, List.map_nil, List.append_nil]
  | succ m ih =>
    intro i acc hn hok
    rw [multLoop, if_pos (by omega)]
    simp only [hok i le_rfl (by omega)]
    rw [ih (i + 1) (acc ++ [pg i]) (by omega)
      (fun j hj1 hj2 => hok j (by omega) hj2)]
    have hn2 : ((e + 1) - i).toNat = m + 1 := by omega
    rw [hn, List.append_assoc, rangeShift pg i (e + 1) m hn2]

/-- A successfully returned page carries the `pageNum` argument as its
`Num` field. -/
theorem scrapePage_num (fetch : String → Except GoError HNode) (now : GoTime)
    (p : Int) (page : Page) (h : ScrapePage fetch now p = .ret page none) :
    page.Num = p := by
  rw [ScrapePage] at h
  by_cases hp : p < 1
  · rw [if_pos hp] at h
    simp at h
  · rw [if_neg hp] at h
    cases hf : fetch (hackernewsURL ++ toString p) with
    | error e => simp only [hf] at h; simp at h
    | ok doc =>
      simp only [hf] at h
      obtain ⟨ps, hpage, -, -⟩ := pageLoop_ok_spec now p (findListRows doc) [] page h
      rw [hpage]

/-! Part: C6 — first fetch failure stops the loop, partial results returned -/

/-- C6: for a valid range, if pages `start..k-1` scrape cleanly and the
fetch of page `k` fails with some error, `ScrapeMultPages` returns exactly
the pages for `start..k-1`, in ascending order, together with that error
propagated unmodified; the conclusion does not depend on the behaviour of
the fetcher past page `k`, so no later page is fetched. -/
theorem multpages_stops_at_first_fetch_failure
    (fetch : String → Except GoError HNode) (now : GoTime) (s e k : Int)
    (pg : Int → Page) (err : GoError)
    (hs : 1 ≤ s) (hse : s ≤ e) (hsk : s ≤ k) (hke : k ≤ e)
    (hok : ∀ i, s ≤ i → i < k → ScrapePage fetch now i = .ret (pg i) none)
    (hfail : fetch (hackernewsURL ++ toString k) = .error err) :
    ScrapeMultPages fetch now s e =
      .ret ((List.range (k - s).toNat).map (fun j : Nat => pg (s + (j : Int))))
        (some err) := by
  have hpk : ScrapePage fetch now k = .ret zeroPage (some err) := by
    rw [ScrapePage, if_neg (by omega)]
    simp only [hfail]
  rw [ScrapeMultPages, if_neg (by omega), if_neg (by omega)]
  have h := multLoop_stops_at_error (fun i => ScrapePage fetch now i) pg e k err
    zeroPage hke hpk (k - s).toNat s [] rfl hsk hok
  simpa using h

/-- A fetcher that fails on page 2 and serves the empty document elsewhere. -/
def fetchFailPage2 : String → Except GoError HNode :=
  fun url => if url = hackernewsURL ++ "2" then .error (.fetchErr "boom")
             else .ok emptyDoc

/-- C6 witness: scraping pages 1..3 with a fetcher that fails on page 2
returns only page 1 together with the fetch error. -/
theorem multpages_stops_at_first_fetch_failure_witness :
    ScrapeMultPages fetchFailPage2 t0 1 3 =
      .ret [⟨[], 1, t0⟩] (some (.fetchErr "boom")) := by
  rw [multpages_stops_at_first_fetch_failure fetchFailPage2 t0 1 3 2
    (fun i => ⟨[], i, t0⟩) (.fetchErr "boom") (by omega) (by omega) (by omega)
    (by omega)
    (fun i h1 h2 => by
      have hi : i = 1 := by omega
      subst hi
      decide)
    (by rfl)]
  rfl

/-! Part: C9 — successful ranges return every page in ascending order -/

/-- C9: for a valid range in which every page scrapes cleanly,
`ScrapeMultPages` returns exactly `end - start + 1` pages, those for
`start`, `start+1`, …, `end` in ascending order; and since each
successfully returned page's `Num` equals its `pageNum` argument
(`scrapePage_num`), the `Num` fields of the result are exactly
`start..end` in ascending order. -/
theorem multpages_success_range
    (fetch : String → Except GoError HNode) (now : GoTime) (s e : Int)
    (pg : Int → Page)
    (hs : 1 ≤ s) (hse : s ≤ e)
    (hok : ∀ i, s ≤ i → i ≤ e → ScrapePage fetch now i = .ret (pg i) none) :
    ScrapeMultPages fetch now s e =
      .ret ((List.range (e + 1 - s).toNat).map
        (fun j : Nat => pg (s + (j : Int)))) none ∧
    ((List.range (e + 1 - s).toNat).map
        (fun j : Nat => pg (s + (j : Int)))).length = (e + 1 - s).toNat ∧
    ((List.range (e + 1 - s).toNat).map
        (fun j : Nat => pg (s + (j : Int)))).map Page.Num =
      (List.range (e + 1 - s).toNat).map (fun j : Nat => s + (j : Int)) := by
  refine ⟨?_, by simp, ?_⟩
  · rw [ScrapeMultPages, if_neg (by omega), if_neg (by omega)]
    have h := multLoop_all_ok (fun i => ScrapePage fetch now i) pg e
      (e + 1 - s).toNat s [] rfl hok
    simpa using h
  · rw [List.map_map]
    refine List.map_congr_left (fun a ha => ?_)
    simp only [Function.comp_apply]
    have ha2 := List.mem_range.mp ha
    exact scrapePage_num fetch now (s + (a : Int)) (pg (s + (a : Int)))
      (hok (s + (a : Int)) (by omega) (by omega))

/-- C9 witness: scraping pages 1..3 with an all-succeeding fetcher yields
exactly three pages with `Num` 1, 2, 3 in order. -/
theorem multpages_success_range_witness :
    ScrapeMultPages fetchEmptyDoc t0 1 3 =
      .ret [⟨[], 1, t0⟩, ⟨[], 2, t0⟩, ⟨[], 3, t0⟩] none := by
  rw [(multpages_success_range fetchEmptyDoc t0 1 3 (fun i => ⟨[], i, t0⟩)
    (by omega) (by omega)
    (fun i h1 h2 => by
      have hi : i = 1 ∨ i = 2 ∨ i = 3 := by omega
      rcases hi with hi | hi | hi <;> subst hi <;> decide)).1]
  rfl

/-! Part: C8 — ranks mirror the document, but are not checked -/

/-- The fetched document with rank texts "5." then "3.". -/
def doc53 : HNode := docOfRows (rowTriple "5." ++ rowTriple "3.")

/-- The page `ScrapePage` extracts from `doc53`. -/
def page53 : Page :=
  ⟨[⟨5, "T", 10, "alice", "http://x", 4, ⟨2021, 1, 2, 3, 4, 5⟩⟩,
    ⟨3, "T", 10, "alice", "http://x", 4, ⟨2021, 1, 2, 3, 4, 5⟩⟩], 1, t0⟩

/-- C8 counterexample: the claim says every error-free page has strictly
increasing `Rank` fields matching row positions; but `ScrapePage` never
checks the parsed ranks, so a document whose rank spans read "5." and "3."
yields an error-free page with ranks [5, 3] — not increasing, and not the
row positions [1, 2]. -/
theorem scrapePage_rank_order_counterexample :
    ScrapePage (fun _ => .ok doc53) t0 1 = .ret page53 none ∧
    page53.Posts.map Post.Rank = [5, 3] ∧
    ¬ List.Chain' (fun a b => a < b) (page53.Posts.map Post.Rank) ∧
    page53.Posts.map Post.Rank ≠ [1, 2] := by
  refine ⟨by decide, by decide, ?_, by decide⟩
  intro h
  rw [show page53.Posts.map Post.Rank = [5, 3] from by decide] at h
  exact absurd (List.chain'_cons.mp h).1 (by decide)

/-- C8 (amended): for every page `ScrapePage` returns without error, the
i-th post's `Rank` is exactly the integer `getRank` parsed from the i-th
processed row group's title row — the code copies the document's rank
markup in row order but never enforces that the values increase or equal
the row positions. -/
theorem scrapePage_ranks_mirror_document
    (fetch : String → Except GoError HNode) (now : GoTime) (p : Int)
    (doc : HNode) (page : Page)
    (hp : 1 ≤ p) (hdoc : fetch (hackernewsURL ++ toString p) = .ok doc)
    (hres : ScrapePage fetch now p = .ret page none) :
    page.Posts.map (fun q => some q.Rank) =
      (groupTitleRows (findListRows doc)).map rankOf := by
  rw [ScrapePage, if_neg (by omega)] at hres
  simp only [hdoc] at hres
  obtain ⟨ps, hpage, -, hranks⟩ :=
    pageLoop_ok_spec now p (findListRows doc) [] page hres
  rw [hpage]
  simpa using hranks.symm

/-- C8 witness: the amended theorem applied to the concrete fetch of
`doc53`. -/
theorem scrapePage_ranks_mirror_document_witness :
    page53.Posts.map (fun q => some q.Rank) =
      (groupTitleRows (findListRows doc53)).map rankOf :=
  scrapePage_ranks_mirror_document (fun _ => .ok doc53) t0 1 doc53 page53
    (by omega) rfl (by decide)

/-! Part: C10 — row grouping arithmetic -/

/-- The row loop ignores everything past the last full group of three: the
result only depends on the first `3 * (length / 3)` rows, so a trailing
title/subtext pair without its spacer is silently skipped. -/
theorem pageLoop_take (now : GoTime) (pn : Int) :
    ∀ (rows : List HNode) (acc : List Post),
      pageLoop now pn rows acc =
        pageLoop now pn (rows.take (3 * (rows.length / 3))) acc
  | t :: s :: sp :: rest => fun acc => by
      have h3 : (t :: s :: sp :: rest).length / 3 = rest.length / 3 + 1 := by
        simp only [List.length_cons]
        omega
      have heq : 3 * (rest.length / 3 + 1) = 3 * (rest.length / 3) + 3 := by
        ring
      have htake : (t :: s :: sp :: rest).take (3 * (rest.length / 3 + 1)) =
          t :: s :: sp :: rest.take (3 * (rest.length / 3)) := by
        rw [heq]
        rfl
      rw [h3, htake]
      simp only [pageLoop]
      cases hgp : getPost t (findSubtextCell s) with
      | crash m => rfl
      | ret post perr =>
        cases perr with
        | some e => rfl
        | none => exact pageLoop_take now pn rest (acc ++ [post])
  | [] => fun acc => rfl
  | [t] => fun acc => by norm_num; rfl
  | [t, s] => fun acc => by norm_num; rfl

/-- C10: after a successful fetch, `ScrapePage` processes exactly
`floor(n/3)` row groups: fewer than three rows (including a wholly absent
post-listing table) give success with an empty post list rather than an
error; the row loop's result only depends on the first `3 * (n / 3)` rows,
so a trailing title/subtext pair lacking its spacer row is silently
skipped; and an error-free page has exactly `n / 3` posts. -/
theorem scrapePage_group_arithmetic :
    (∀ (fetch : String → Except GoError HNode) (now : GoTime) (p : Int)
        (doc : HNode),
      1 ≤ p → fetch (hackernewsURL ++ toString p) = .ok doc →
      (findListRows doc).length < 3 →
      ScrapePage fetch now p = .ret ⟨[], p, now⟩ none) ∧
    (∀ (now : GoTime) (p : Int) (rows : List HNode) (acc : List Post),
      pageLoop now p rows acc =
        pageLoop now p (rows.take (3 * (rows.length / 3))) acc) ∧
    (∀ (fetch : String → Except GoError HNode) (now : GoTime) (p : Int)
        (doc : HNode) (page : Page),
      1 ≤ p → fetch (hackernewsURL ++ toString p) = .ok doc →
      ScrapePage fetch now p = .ret page none →
      page.Posts.length = (findListRows doc).length / 3) := by
  refine ⟨fun fetch now p doc hp hdoc hlen => ?_, pageLoop_take,
    fun fetch now p doc page hp hdoc hres => ?_⟩
  · rw [ScrapePage, if_neg (by omega)]
    simp only [hdoc]
    generalize findListRows doc = rows at hlen ⊢
    rcases rows with _ | ⟨a, _ | ⟨b, _ | ⟨c, rest⟩⟩⟩
    · rfl
    · rfl
    · rfl
    · simp only [List.length_cons] at hlen
      omega
  · rw [ScrapePage, if_neg (by omega)] at hres
    simp only [hdoc] at hres
    obtain ⟨ps, hpage, hlen, -⟩ :=
      pageLoop_ok_spec now p (findListRows doc) [] page hres
    rw [hpage]
    simpa using hlen

/-- Five rows: one full triple followed by a trailing title/subtext pair. -/
def fiveRows : List HNode :=
  rowTriple "5." ++ [titleRow "3.", mkTr [subtextGood]]

/-- C10 witness: the empty document (no listing table, zero rows) scrapes
to a success with no posts, and the row loop on five rows equals the row
loop on their first `3 * (5 / 3)` rows — the trailing pair is skipped. -/
theorem scrapePage_group_arithmetic_witness :
    ScrapePage fetchEmptyDoc t0 1 = .ret ⟨[], 1, t0⟩ none ∧
    pageLoop t0 1 fiveRows [] =
      pageLoop t0 1 (fiveRows.take (3 * (fiveRows.length / 3))) [] :=
  ⟨scrapePage_group_arithmetic.1 fetchEmptyDoc t0 1 emptyDoc (by omega) rfl
      (by decide),
   scrapePage_group_arithmetic.2.1 t0 1 fiveRows []⟩

end HNScraper
